import Mathlib

/-!
Shallow embedding of the Lavalink.py client core (src/lavalink/websocket.py,
src/lavalink/models.py, src/lavalink/ext/players/AdvancedPlayer.py) and
verification of the frozen claims about it.

Conventions of the embedding:
* Python ints are `Int` (or `Nat` where the source guarantees non-negativity,
  such as track durations in milliseconds); equalizer gains, which are Python
  floats combined only through `min`/`max` and literal constants, are `Rat`,
  so every comparison in the source is reproduced exactly.
* A stateful method becomes a function from the receiver state (plus explicit
  inputs such as the current wall-clock time `now`) to the new state together
  with the list of outbound commands sent and events dispatched, in order.
* A method that can raise returns, in addition, an `Option PyError`; the state
  component then reflects every mutation performed before the raise, exactly
  as the surviving Python object would.
-/

namespace Lavalink

/-- Python exception kinds raised by the code paths the claims mention. -/
inductive PyError
  | valueError
  | indexError
  | typeError
deriving DecidableEq, Repr

/-- AudioTrack (models.py): immutable track descriptor. Only the fields the
modelled operations read are kept; `duration` is the millisecond length
(data.info.length), a non-negative integer. -/
structure AudioTrack where
  track : String
  identifier : String
  is_seekable : Bool
  author : String
  duration : Nat
  stream : Bool
  title : String
  uri : String
deriving DecidableEq, Repr

/-- Outbound wire commands built by Node._send call sites. Optional payload
fields mirror keys that the source includes only conditionally. -/
inductive Command
  | play (guildId : String) (track : String)
      (startTime endTime : Option Int) (noReplace : Option Bool)
  | stop (guildId : String)
  | pause (guildId : String) (pauseFlag : Bool)
  | volume (guildId : String) (vol : Int)
  | seek (guildId : String) (position : Int)
  | equalizer (guildId : String) (bands : List (Int × Rat))
  | voiceUpdate (guildId : String) (sessionId : String)
  | destroy (guildId : String)
deriving DecidableEq, Repr

/-- Typed domain events (events.py constructors used by the modelled code). -/
inductive Event
  | trackStart (track : AudioTrack)
  | trackEnd (reason : String)
  | trackStuck
  | trackException
  | queueEnd
  | nodeChanged (oldNode newNode : Nat)
  | playerUpdate (position : Int) (timestamp : Int)
deriving DecidableEq, Repr

/-- One observable step of a player method: either an outbound command through
the node or a dispatched event. A single list keeps their relative order. -/
inductive Action
  | cmd (c : Command)
  | ev (e : Event)
deriving DecidableEq, Repr

section WebSocketModel

/-- Outcome of one ws_connect attempt inside WebSocket.connect:
success, a transport-level aiohttp.ClientConnectorError, or an
aiohttp.WSServerHandshakeError carrying the HTTP status. -/
inductive AttemptResult
  | success
  | connectorError
  | handshakeError (status : Nat)
deriving DecidableEq, Repr

/-- Result of running the connect retry loop against a given sequence of
attempt outcomes: `connected n` after the n-th attempt succeeded,
`abortedAuth n` after the n-th attempt hit the fatal-authentication return,
`exhausted n` when the supplied outcome sequence ran out after n attempts. -/
inductive ConnectOutcome
  | connected (attemptsMade : Nat)
  | abortedAuth (attemptsMade : Nat)
  | exhausted (attemptsMade : Nat)
deriving DecidableEq, Repr

/-- WebSocket.connect retry loop (websocket.py lines 56-104), driven by the
environment as a list of attempt outcomes. `attempt` is the counter local to
connect, 0 before the first iteration. The warning-only branches are elided;
control flow is kept exactly: the `return` on a 401 handshake status sits
inside the `if attempt == 1` block, so it fires only when the very first
attempt is the authentication rejection; every other failure falls through to
the backoff sleep and the loop continues. -/
def connectLoop (attempt : Nat) : List AttemptResult → ConnectOutcome
  | [] => .exhausted attempt
  | o :: rest =>
    let attempt := attempt + 1
    match o with
    | .success => .connected attempt
    | .connectorError => connectLoop attempt rest
    | .handshakeError status =>
      if attempt = 1 ∧ status = 401 then .abortedAuth attempt
      else connectLoop attempt rest

/-- Backoff delay before retrying attempt n (websocket.py line 90). -/
def backoff (attempt : Nat) : Nat := min (10 * attempt) 60

/-- An outbound message as seen by WebSocket._send: either an opaque payload
submitted by a player (identified by a tag) or the configureResuming payload
that connect itself sends. -/
inductive Msg
  | user (tag : Nat)
  | configureResuming (key : String) (timeout : Int)
deriving DecidableEq, Repr

/-- The WebSocket state relevant to buffering: whether the socket is live,
the outbound message queue, the ordered log of payloads actually transmitted
(send_json calls), and the resume-configuration fields. -/
structure WS where
  connected : Bool
  message_queue : List Msg
  sent : List Msg
  resuming_configured : Bool
  resume_key : String
  resume_timeout : Int
deriving DecidableEq, Repr

/-- WebSocket._send (websocket.py lines 194-207): transmit immediately when
connected, otherwise append to the message queue. -/
def WS.send (w : WS) (m : Msg) : WS :=
  if w.connected then { w with sent := w.sent ++ [m] }
  else { w with message_queue := w.message_queue ++ [m] }

/-- The success branch of WebSocket.connect (websocket.py lines 93-104): the
socket becomes live, resuming is configured when a key is set, not yet
configured, and the timeout is positive, then the buffered messages are
re-sent through _send in order and the queue is cleared. -/
def WS.connectSuccess (w : WS) : WS :=
  let w1 : WS := { w with connected := true }
  let w2 : WS :=
    if ¬w1.resuming_configured ∧ w1.resume_key ≠ "" ∧ w1.resume_timeout > 0 then
      { w1.send (.configureResuming w1.resume_key w1.resume_timeout) with
          resuming_configured := true }
    else w1
  let w3 : WS := w2.message_queue.foldl WS.send w2
  { w3 with message_queue := [] }

/-- The configureResuming payloads that connect emits on success, as a list
(empty or a singleton), for stating the flush theorem. -/
def WS.resumeSends (w : WS) : List Msg :=
  if ¬w.resuming_configured ∧ w.resume_key ≠ "" ∧ w.resume_timeout > 0 then
    [.configureResuming w.resume_key w.resume_timeout]
  else []

end WebSocketModel

section PlayerModel

/-- The voice-state dictionary of BasePlayer (models.py lines 87-127), which
holds at most the keys sessionId and event. A voice update is dispatched to
the node exactly when both keys are present. -/
structure VoiceState where
  sessionId : Option String
  eventPresent : Bool
deriving DecidableEq, Repr

/-- Truthiness of the voice-state dict: non-empty iff some key is present. -/
def VoiceState.nonempty (v : VoiceState) : Bool :=
  v.sessionId.isSome || v.eventPresent

/-- BasicPlayer state (models.py lines 131-141 plus the BasePlayer fields).
`node` is the identifier of the assigned node; `channel_id` is the bound
voice channel; `last_update` and `last_position` are the position anchors
set by _update_state and play. -/
structure BasicPlayer where
  guild_id : String
  node : Nat
  channel_id : Option String
  voice_state : VoiceState
  volume : Int
  paused : Bool
  equalizer : List Rat
  current : Option AudioTrack
  last_update : Int
  last_position : Int
  position_timestamp : Int
deriving DecidableEq, Repr

/-- BasicPlayer.is_connected (models.py lines 149-152). -/
def BasicPlayer.is_connected (p : BasicPlayer) : Bool :=
  p.channel_id.isSome

/-- BasicPlayer.is_playing (models.py lines 144-147). -/
def BasicPlayer.is_playing (p : BasicPlayer) : Bool :=
  p.is_connected && p.current.isSome

/-- BasicPlayer.position (models.py lines 154-163): 0 when not playing,
frozen at min(last_position, duration) when paused, otherwise the anchored
position extrapolated by the wall clock and capped at the track duration.
`now` is time() * 1000 at the moment of the query. -/
def BasicPlayer.position (p : BasicPlayer) (now : Int) : Int :=
  match p.current with
  | none => 0
  | some t =>
    if ¬p.is_connected then 0
    else if p.paused then min p.last_position (t.duration : Int)
    else min (p.last_position + (now - p.last_update)) (t.duration : Int)

/-- BasicPlayer._handle_event (models.py lines 165-176): clears the current
track on TrackStuckEvent, TrackExceptionEvent, or a TrackEndEvent whose
reason is exactly FINISHED; every other event leaves the state untouched. -/
def BasicPlayer.handle_event (p : BasicPlayer) (e : Event) : BasicPlayer :=
  match e with
  | .trackStuck => { p with current := none }
  | .trackException => { p with current := none }
  | .trackEnd reason =>
    if reason = "FINISHED" then { p with current := none } else p
  | _ => p

/-- BasicPlayer.play (models.py lines 204-235): resets the anchors and the
pause flag, stores the track as current, sends a play command that always
carries startTime, endTime and noReplace, then dispatches TrackStartEvent. -/
def BasicPlayer.play (p : BasicPlayer) (track : AudioTrack)
    (start_time end_time : Int) (no_replace : Bool) :
    BasicPlayer × List Action :=
  let p := { p with last_update := 0, last_position := 0,
                    position_timestamp := 0, paused := false }
  let p := { p with current := some track }
  (p, [.cmd (.play p.guild_id track.track (some start_time) (some end_time)
              (some no_replace)),
      .ev (.trackStart track)])

/-- BasicPlayer.stop (models.py lines 237-240): sends stop, then clears the
current track. -/
def BasicPlayer.stop (p : BasicPlayer) : BasicPlayer × List Action :=
  ({ p with current := none }, [.cmd (.stop p.guild_id)])

/-- BasicPlayer.set_pause (models.py lines 242-252): sends the pause command,
then stores the flag. -/
def BasicPlayer.set_pause (p : BasicPlayer) (pauseFlag : Bool) :
    BasicPlayer × List Action :=
  ({ p with paused := pauseFlag }, [.cmd (.pause p.guild_id pauseFlag)])

/-- BasicPlayer.set_volume (models.py lines 254-268): the volume command is
built from self.volume, the field as it stands BEFORE the assignment, and
only afterwards is the field set to vol — so the payload carries the old
value, not the new one. -/
def BasicPlayer.set_volume (p : BasicPlayer) (vol : Int) :
    BasicPlayer × List Action :=
  ({ p with volume := vol }, [.cmd (.volume p.guild_id p.volume)])

/-- BasicPlayer.seek (models.py lines 270-279): sends seek, no local change. -/
def BasicPlayer.seek (p : BasicPlayer) (position : Int) :
    BasicPlayer × List Action :=
  (p, [.cmd (.seek p.guild_id position)])

/-- Gain clamping (models.py line 301, AdvancedPlayer.py line 219):
max(min(float(gain), 1.0), -0.25). -/
def clampGain (gain : Rat) : Rat :=
  max (min gain 1) (-(1/4))

/-- Python list item assignment lst[i] = v for a list of length n: indices in
[0, n) write directly, indices in [-n, 0) write to n + i, anything else
raises IndexError. -/
def pyListSet (l : List Rat) (i : Int) (v : Rat) :
    Except PyError (List Rat) :=
  if 0 ≤ i ∧ i < (l.length : Int) then .ok (l.set i.toNat v)
  else if -(l.length : Int) ≤ i ∧ i < 0 then
    .ok (l.set (l.length - (-i).toNat) v)
  else .error .indexError

/-- The loop of BasicPlayer.set_gains (models.py lines 294-302): per entry,
clamp the gain, append to the update package, then assign
self.equalizer[band]. The isinstance tuple check cannot fail here because
entries are pairs by type. On an IndexError from the assignment the loop
stops; the equalizer returned is the mutated-so-far array, since the Python
object keeps every assignment made before the raise. -/
def setGainsLoopBasic (eq : List Rat) (pkg : List (Int × Rat)) :
    List (Int × Rat) → List Rat × List (Int × Rat) × Option PyError
  | [] => (eq, pkg, none)
  | (band, gain) :: rest =>
    let g := clampGain gain
    let pkg := pkg ++ [(band, g)]
    match pyListSet eq band g with
    | .error e => (eq, pkg, some e)
    | .ok eq2 => setGainsLoopBasic eq2 pkg rest

/-- BasicPlayer.set_gains (models.py lines 281-303): runs the loop over the
entries; only when no entry raised is the single equalizer command sent. -/
def BasicPlayer.set_gains (p : BasicPlayer) (gain_list : List (Int × Rat)) :
    BasicPlayer × List Action × Option PyError :=
  match setGainsLoopBasic p.equalizer [] gain_list with
  | (eq, pkg, none) =>
    ({ p with equalizer := eq }, [.cmd (.equalizer p.guild_id pkg)], none)
  | (eq, _, some e) => ({ p with equalizer := eq }, [], some e)

/-- BasePlayer._dispatch_voice_update (models.py lines 126-128): a
voiceUpdate command goes out exactly when the voice-state dict holds both
the sessionId and the event keys. -/
def dispatch_voice_update (guildId : String) (v : VoiceState) : List Action :=
  match v.sessionId, v.eventPresent with
  | some sid, true => [.cmd (.voiceUpdate guildId sid)]
  | _, _ => []

/-- BasicPlayer.change_node (models.py lines 178-202): destroy on the old
node when it is available, reassign, replay the voice update when the voice
state is complete, resend play (startTime = computed position) and reset the
update anchor when a current track exists, also resending pause when paused;
resend volume only when it differs from 100; resend the full equalizer only
when some band is non-zero (any() truthiness); finally dispatch
NodeChangedEvent. -/
def BasicPlayer.change_node (p : BasicPlayer) (newNode : Nat) (now : Int)
    (oldAvailable : Bool) : BasicPlayer × List Action :=
  let destroyActs : List Action :=
    if oldAvailable then [.cmd (.destroy p.guild_id)] else []
  let oldNode := p.node
  let p := { p with node := newNode }
  let voiceActs : List Action :=
    if p.voice_state.nonempty then dispatch_voice_update p.guild_id p.voice_state
    else []
  let playActs : List Action :=
    match p.current with
    | some t =>
      [Action.cmd (.play p.guild_id t.track (some (p.position now)) none none)]
        ++ (if p.paused then [Action.cmd (.pause p.guild_id p.paused)] else [])
    | none => []
  let p := if p.current.isSome then { p with last_update := now } else p
  let volumeActs : List Action :=
    if p.volume ≠ 100 then [.cmd (.volume p.guild_id p.volume)] else []
  let eqActs : List Action :=
    if p.equalizer.any (fun g => g ≠ 0) then
      [.cmd (.equalizer p.guild_id (List.enum p.equalizer |>.map
        (fun bg => ((bg.1 : Int), bg.2))))]
    else []
  (p, destroyActs ++ voiceActs ++ playActs ++ volumeActs ++ eqActs ++
      [.ev (.nodeChanged oldNode newNode)])

end PlayerModel

section AdvancedPlayerModel

/-- AdvancedPlayer state (AdvancedPlayer.py lines 37-52): the BasicPlayer
fields plus the shuffle and repeat flags and the queue (a collections.deque).
The source attribute named repeat is rendered repeat_flag because repeat is a
reserved word in Lean. The per-session user-data store is not modelled; no
claim touches it. -/
structure AdvancedPlayer extends BasicPlayer where
  shuffle : Bool
  repeat_flag : Bool
  queue : List AudioTrack
deriving DecidableEq, Repr

/-- The time-range guard of AdvancedPlayer.play (lines 168-176). In Python it
reads `0 > value > track.duration`, a chained comparison equivalent to
value < 0 AND value > duration — which no value satisfies for a non-negative
duration, so the ValueError branch is dead code. The guard is transcribed
as written. -/
def timeRangeViolated (value : Int) (duration : Nat) : Bool :=
  0 > value && value > (duration : Int)

/-- AdvancedPlayer.play (AdvancedPlayer.py lines 123-183). Steps, in source
order: when repeat is set and a current track exists, re-append it to the
queue; reset the anchors and the pause flag; when no explicit track is given,
either stop and dispatch QueueEndEvent (empty queue) or select a queue index
and call self.queue.pop(pop_at) — collections.deque.pop accepts no positional
argument, so that call raises TypeError whenever it is reached; with a track
in hand, run the (dead) time-range guards, build the options dict with only
the keys whose value is truthy, set current, send play, dispatch
TrackStartEvent. The returned state carries every mutation made before a
raise. -/
def AdvancedPlayer.play (p : AdvancedPlayer) (track? : Option AudioTrack)
    (start_time end_time : Int) (no_replace : Bool) :
    AdvancedPlayer × List Action × Option PyError :=
  let p :=
    match p.current with
    | some c =>
      if p.repeat_flag then { p with queue := p.queue ++ [c] } else p
    | none => p
  let p := { p with last_update := 0, last_position := 0,
                    position_timestamp := 0, paused := false }
  match track? with
  | none =>
    if p.queue.isEmpty then
      ({ p with current := none },
       [.cmd (.stop p.guild_id), .ev .queueEnd], none)
    else
      (p, [], some .typeError)
  | some track =>
    if start_time ≠ 0 ∧ timeRangeViolated start_time track.duration then
      (p, [], some .valueError)
    else if end_time ≠ 0 ∧ timeRangeViolated end_time track.duration then
      (p, [], some .valueError)
    else
      let startOpt : Option Int :=
        if start_time ≠ 0 then some start_time else none
      let endOpt : Option Int :=
        if end_time ≠ 0 then some end_time else none
      let nrOpt : Option Bool := if no_replace then some true else none
      let p := { p with current := some track }
      (p, [.cmd (.play p.guild_id track.track startOpt endOpt nrOpt),
           .ev (.trackStart track)], none)

/-- The loop of AdvancedPlayer.set_gains (AdvancedPlayer.py lines 211-221):
like the base loop but each entry is first range-checked with
`not -1 < band < 15`, raising IndexError before any clamping or assignment
for that entry; entries already processed keep their effect on the array. -/
def setGainsLoopAdv (eq : List Rat) (pkg : List (Int × Rat)) :
    List (Int × Rat) → List Rat × List (Int × Rat) × Option PyError
  | [] => (eq, pkg, none)
  | (band, gain) :: rest =>
    if ¬(-1 < band ∧ band < 15) then (eq, pkg, some .indexError)
    else
      let g := clampGain gain
      let pkg := pkg ++ [(band, g)]
      match pyListSet eq band g with
      | .error e => (eq, pkg, some e)
      | .ok eq2 => setGainsLoopAdv eq2 pkg rest

/-- AdvancedPlayer.set_gains (AdvancedPlayer.py lines 198-222). -/
def AdvancedPlayer.set_gains (p : AdvancedPlayer)
    (gain_list : List (Int × Rat)) :
    AdvancedPlayer × List Action × Option PyError :=
  match setGainsLoopAdv p.equalizer [] gain_list with
  | (eq, pkg, none) =>
    ({ p with equalizer := eq }, [.cmd (.equalizer p.guild_id pkg)], none)
  | (eq, _, some e) => ({ p with equalizer := eq }, [], some e)

/-- AdvancedPlayer._handle_event (AdvancedPlayer.py lines 228-239): the same
trigger condition as the base handler, but instead of clearing the current
track it auto-advances by invoking play with no track. -/
def AdvancedPlayer.handle_event (p : AdvancedPlayer) (e : Event) :
    AdvancedPlayer × List Action × Option PyError :=
  let triggers : Bool :=
    match e with
    | .trackStuck => true
    | .trackException => true
    | .trackEnd reason => reason = "FINISHED"
    | _ => false
  if triggers then p.play none 0 0 false
  else (p, [], none)

end AdvancedPlayerModel

section Fixtures

/-- A concrete track of duration 200000 ms, as in the example of the spec. -/
def trackA : AudioTrack :=
  { track := "b64A", identifier := "dQw4w9WgXcQ", is_seekable := true,
    author := "authorA", duration := 200000, stream := false,
    title := "titleA", uri := "uriA" }

/-- The equalizer array as initialised by the constructor: 15 zero gains. -/
def defaultEqualizer : List Rat := List.replicate 15 0

/-- A freshly constructed BasicPlayer for guild 1 bound to voice channel 555
(constructor defaults of models.py lines 84-89 and 132-138). -/
def playerG : BasicPlayer :=
  { guild_id := "1", node := 0, channel_id := some "555",
    voice_state := { sessionId := none, eventPresent := false },
    volume := 100, paused := false, equalizer := defaultEqualizer,
    current := none, last_update := 0, last_position := 0,
    position_timestamp := 0 }

/-- A freshly constructed AdvancedPlayer for guild 1 (AdvancedPlayer.py
lines 37-52). -/
def advPlayerG : AdvancedPlayer :=
  { toBasicPlayer := playerG, shuffle := false, repeat_flag := false,
    queue := [] }

/-- advPlayerG with exactly one queued track. -/
def advPlayerQ : AdvancedPlayer := { advPlayerG with queue := [trackA] }

/-- playerG playing trackA, paused, 123 ms in (for the C6 witness). -/
def playerPaused : BasicPlayer :=
  { playerG with
      current := some trackA,
      paused := true,
      last_position := 123 }

/-- A player with every non-default component set: paused on trackA at
123 ms, volume 42, band 3 raised to 0.5 — exercising all resend branches of
change_node (for the C7 witness). -/
def playerC7 : BasicPlayer :=
  { playerG with
      current := some trackA,
      paused := true,
      last_position := 123,
      volume := 42,
      equalizer := defaultEqualizer.set 3 1 }

end Fixtures

section GainHelpers

/-- The band of an entry lies in the accepted range 0..14. This is the
condition the extended variant tests (as `-1 < band < 15`). -/
def bandInRange (bg : Int × Rat) : Bool :=
  0 ≤ bg.1 && bg.1 ≤ 14

/-- An entry as it appears in the outbound equalizer payload: the band
unchanged, the gain clamped. -/
def clampEntry (bg : Int × Rat) : Int × Rat :=
  (bg.1, clampGain bg.2)

/-- Batch application of clamped gains to the equalizer array, for stating
what a successful set_gains run stores. -/
def applyGains (eq : List Rat) (gl : List (Int × Rat)) : List Rat :=
  gl.foldl (fun e bg => e.set bg.1.toNat (clampGain bg.2)) eq

end GainHelpers

section Claims

/-- C1: evaluation of the connect retry loop at the failing input. When the
first attempt fails at transport level and the second attempt is the 401
authentication rejection, the loop does not stop: a third connect attempt is
made (here it succeeds), because the fatal return is reachable only when the
401 arrives on the very first attempt — in which case the loop does stop, as
the second conjunct records. -/
theorem c1_auth_abort_only_on_first_attempt :
    connectLoop 0 [.connectorError, .handshakeError 401, .success]
      = .connected 3 ∧
    connectLoop 0 [.handshakeError 401, .success] = .abortedAuth 1 := by
  exact ⟨rfl, rfl⟩

/-- C2: evaluation of AdvancedPlayer.play at the example of the spec.
For a 200000 ms track, play with startTime 250000 does NOT fail: the chained
comparison `0 > start_time > track.duration` is unsatisfiable, so no
ValueError is raised and the play command goes out carrying the out-of-range
startTime 250000; the in-range call (1000, 2000) succeeds as the spec says. -/
theorem c2_range_guard_never_fires :
    (advPlayerG.play (some trackA) 250000 0 false).2.2 = none ∧
    (advPlayerG.play (some trackA) 250000 0 false).2.1
      = [.cmd (.play "1" "b64A" (some 250000) none none),
         .ev (.trackStart trackA)] ∧
    (advPlayerG.play (some trackA) 1000 2000 false).2.2 = none ∧
    (advPlayerG.play (some trackA) 1000 2000 false).2.1
      = [.cmd (.play "1" "b64A" (some 1000) (some 2000) none),
         .ev (.trackStart trackA)] := by
  refine ⟨rfl, rfl, rfl, rfl⟩

/-- C4: evaluation of BasicPlayer.set_volume at the failing input. On a
player whose volume is the default 100, set_volume 50 emits a volume command
carrying 100 — the old field value — and only then stores 50; no command
carrying the new value 50 is ever sent by this call. -/
theorem c4_set_volume_sends_old_value :
    (playerG.set_volume 50).2 = [.cmd (.volume "1" 100)] ∧
    (playerG.set_volume 50).1.volume = 50 ∧
    Action.cmd (.volume "1" 50) ∉ (playerG.set_volume 50).2 := by
  refine ⟨rfl, rfl, by decide⟩

/-- C8: evaluation of AdvancedPlayer.play with no explicit track. With an
empty queue the behaviour is as claimed: a stop command followed by the
queue-end event, current becomes none. With a non-empty queue and shuffle
disabled, the call raises TypeError — self.queue is a collections.deque and
deque.pop accepts no positional index, so queue.pop(pop_at) fails — no track
is removed from the queue, nothing is sent, nothing is played. -/
theorem c8_empty_queue_ok_nonempty_queue_raises :
    (advPlayerG.play none 0 0 false)
      = ({ advPlayerG with current := none },
         [.cmd (.stop "1"), .ev .queueEnd], none) ∧
    (advPlayerQ.play none 0 0 false).2.2 = some .typeError ∧
    (advPlayerQ.play none 0 0 false).2.1 = [] ∧
    (advPlayerQ.play none 0 0 false).1.queue = [trackA] ∧
    (advPlayerQ.play none 0 0 false).1.current = none := by
  refine ⟨rfl, rfl, rfl, rfl, rfl⟩

/-- The chained-comparison guard can never hold: a value below 0 cannot also
exceed a non-negative duration. -/
theorem timeRangeViolated_eq_false (v : Int) (d : Nat) :
    timeRangeViolated v d = false := by
  simp only [timeRangeViolated, Bool.and_eq_false_iff, decide_eq_false_iff_not,
    not_lt, gt_iff_lt]
  omega

/-- C9: play with no_replace = true still overwrites the local player state
unconditionally, in both variants: position anchors and the pause flag are
reset, the current track is replaced by the new one, and the outgoing play
command carries noReplace — so the remote may ignore the command while the
local state already changed. -/
theorem c9_no_replace_still_overwrites (p : BasicPlayer) (q : AdvancedPlayer)
    (t : AudioTrack) (st et : Int) :
    ((p.play t st et true).1.current = some t ∧
     (p.play t st et true).1.paused = false ∧
     (p.play t st et true).1.last_update = 0 ∧
     (p.play t st et true).1.last_position = 0 ∧
     (p.play t st et true).1.position_timestamp = 0 ∧
     Action.cmd (.play p.guild_id t.track (some st) (some et) (some true))
       ∈ (p.play t st et true).2) ∧
    ((q.play (some t) st et true).2.2 = none ∧
     (q.play (some t) st et true).1.current = some t ∧
     (q.play (some t) st et true).1.paused = false ∧
     (q.play (some t) st et true).1.last_update = 0 ∧
     (q.play (some t) st et true).1.last_position = 0 ∧
     (q.play (some t) st et true).1.position_timestamp = 0 ∧
     Action.cmd (.play q.guild_id t.track
         (if st ≠ 0 then some st else none)
         (if et ≠ 0 then some et else none) (some true))
       ∈ (q.play (some t) st et true).2.1) := by
  constructor
  · simp [BasicPlayer.play]
  · cases hc : q.current with
    | none => simp [AdvancedPlayer.play, hc, timeRangeViolated_eq_false]
    | some c =>
      by_cases hr : q.repeat_flag <;>
        simp [AdvancedPlayer.play, hc, hr, timeRangeViolated_eq_false]

/-- C10: a track-end event whose reason is not exactly FINISHED leaves the
base player untouched and does not auto-advance the extended player: no
state change, no outbound command, no event, no error. -/
theorem c10_non_finished_end_is_noop (p : BasicPlayer) (q : AdvancedPlayer)
    (reason : String) (h : reason ≠ "FINISHED") :
    p.handle_event (.trackEnd reason) = p ∧
    q.handle_event (.trackEnd reason) = (q, [], none) := by
  constructor
  · simp [BasicPlayer.handle_event, h]
  · simp [AdvancedPlayer.handle_event, h]

/-- Witness for C10 at reason REPLACED on the concrete players. -/
theorem c10_non_finished_end_is_noop_witness :
    playerG.handle_event (.trackEnd "REPLACED") = playerG ∧
    advPlayerG.handle_event (.trackEnd "REPLACED")
      = (advPlayerG, [], none) :=
  c10_non_finished_end_is_noop playerG advPlayerG "REPLACED" (by decide)

/-- C6: the position query follows the claimed three-way formula, and its
value never exceeds the duration of the current track; while paused it is
the frozen min(last-known position, duration). -/
theorem c6_position_formula (p : BasicPlayer) (now : Int) :
    (p.is_playing = false → p.position now = 0) ∧
    (∀ t, p.current = some t →
      (p.is_playing = true → p.paused = true →
        p.position now = min p.last_position (t.duration : Int)) ∧
      (p.is_playing = true → p.paused = false →
        p.position now
          = min (p.last_position + (now - p.last_update)) (t.duration : Int)) ∧
      p.position now ≤ (t.duration : Int)) := by
  cases hc : p.current with
  | none =>
    simp [BasicPlayer.position, hc]
  | some t =>
    cases hch : p.channel_id with
    | none =>
      simp [BasicPlayer.position, BasicPlayer.is_playing,
        BasicPlayer.is_connected, hc, hch]
    | some ch =>
      by_cases hp : p.paused <;>
        simp [BasicPlayer.position, BasicPlayer.is_playing,
          BasicPlayer.is_connected, hc, hch, hp, min_le_right]

/-- Witness for C6: a paused player 123 ms into the 200000 ms track. -/
theorem c6_position_formula_witness :
    playerPaused.position 5000 = min 123 200000 ∧
    playerPaused.position 5000 ≤ 200000 := by
  have h := c6_position_formula playerPaused 5000
  obtain ⟨-, h2⟩ := h
  obtain ⟨hfrozen, -, hle⟩ := h2 trackA rfl
  exact ⟨hfrozen (by decide) rfl, hle⟩

/-- Sending while connected appends to the transmission log only. -/
theorem WS.send_connected_eq (w : WS) (m : Msg) (h : w.connected = true) :
    w.send m = { w with sent := w.sent ++ [m] } := by
  simp [WS.send, h]

/-- Sending while disconnected appends to the message queue only. -/
theorem WS.send_disconnected_eq (w : WS) (m : Msg) (h : w.connected = false) :
    w.send m = { w with message_queue := w.message_queue ++ [m] } := by
  simp [WS.send, h]

/-- Flushing a list of messages through _send on a connected socket appends
them to the transmission log in order and changes nothing else. -/
theorem WS.foldl_send_connected (ms : List Msg) (w : WS)
    (h : w.connected = true) :
    ms.foldl WS.send w = { w with sent := w.sent ++ ms } := by
  induction ms generalizing w with
  | nil => simp
  | cons m rest ih =>
    rw [List.foldl_cons, WS.send_connected_eq w m h,
      ih { w with sent := w.sent ++ [m] } h]
    simp

/-- The success branch of connect: the transmission log gains the (at most
one) configureResuming payload followed by the whole buffered queue in
order, the queue empties, and the socket is connected. -/
theorem WS.connectSuccess_spec (w : WS) :
    w.connectSuccess.sent = w.sent ++ w.resumeSends ++ w.message_queue ∧
    w.connectSuccess.message_queue = [] ∧
    w.connectSuccess.connected = true := by
  by_cases hc : w.resuming_configured = false ∧ ¬w.resume_key = "" ∧
      0 < w.resume_timeout <;>
    simp [WS.connectSuccess, WS.resumeSends, WS.send, hc,
      WS.foldl_send_connected]

/-- C5: messages sent while the socket is down are appended to the buffer in
order and are not transmitted; on the next successful connect the whole
buffer is transmitted exactly once in original order (right after the
connect-owned configureResuming payload, when one is due), the buffer
becomes empty, and any message submitted after the reconnect lands strictly
after the flushed ones. -/
theorem c5_disconnected_buffer_flush (w : WS) (m : Msg)
    (h : w.connected = false) :
    (w.send m).sent = w.sent ∧
    (w.send m).message_queue = w.message_queue ++ [m] ∧
    (w.send m).connectSuccess.sent
      = w.sent ++ w.resumeSends ++ (w.message_queue ++ [m]) ∧
    (w.send m).connectSuccess.message_queue = [] ∧
    ∀ m2, ((w.send m).connectSuccess.send m2).sent
      = w.sent ++ w.resumeSends ++ (w.message_queue ++ [m]) ++ [m2] := by
  rw [WS.send_disconnected_eq w m h]
  obtain ⟨hs, hq, hcon⟩ :=
    WS.connectSuccess_spec { w with message_queue := w.message_queue ++ [m] }
  refine ⟨rfl, rfl, ?_, hq, ?_⟩
  · rw [hs]
    simp [WS.resumeSends]
  · intro m2
    rw [WS.send_connected_eq _ m2 hcon, hs]
    simp [WS.resumeSends]

/-- Witness for C5: a disconnected socket with one message already buffered
receives another, reconnects (no resume key, so no configureResuming), and
then transmits a post-reconnect message. -/
theorem c5_disconnected_buffer_flush_witness :
    ∃ w : WS,
      w.connected = false ∧
      (w.send (.user 2)).message_queue = [.user 1, .user 2] ∧
      (w.send (.user 2)).connectSuccess.sent = [.user 1, .user 2] ∧
      ((w.send (.user 2)).connectSuccess.send (.user 3)).sent
        = [.user 1, .user 2, .user 3] := by
  refine ⟨{ connected := false, message_queue := [.user 1], sent := [],
            resuming_configured := false, resume_key := "",
            resume_timeout := 60 }, rfl, ?_⟩
  have h := c5_disconnected_buffer_flush
    { connected := false, message_queue := [.user 1], sent := [],
      resuming_configured := false, resume_key := "", resume_timeout := 60 }
    (.user 2) rfl
  obtain ⟨-, h2, h3, -, h5⟩ := h
  refine ⟨by rw [h2]; rfl, by rw [h3]; rfl, by rw [h5 (Msg.user 3)]; rfl⟩

/-- Python item assignment at an in-range non-negative index is List.set. -/
theorem pyListSet_inRange (l : List Rat) (i : Int) (v : Rat)
    (h0 : 0 ≤ i) (hlt : i < (l.length : Int)) :
    pyListSet l i v = .ok (l.set i.toNat v) := by
  simp [pyListSet, h0, hlt]

/-- On a batch whose bands all lie in 0..14, the extended set_gains loop
terminates normally, stores the clamped gain of every entry, and assembles
the update package as the clamped batch in order. -/
theorem setGainsLoopAdv_all_inRange (gl : List (Int × Rat)) :
    ∀ (eq : List Rat) (pkg : List (Int × Rat)), eq.length = 15 →
      (∀ bg ∈ gl, bandInRange bg = true) →
      setGainsLoopAdv eq pkg gl
        = (applyGains eq gl, pkg ++ gl.map clampEntry, none) := by
  induction gl with
  | nil =>
    intro eq pkg _ _
    simp [setGainsLoopAdv, applyGains]
  | cons bg rest ih =>
    intro eq pkg hlen hall
    obtain ⟨band, gain⟩ := bg
    have hb : 0 ≤ band ∧ band ≤ 14 := by
      have := hall (band, gain) (by simp)
      simpa [bandInRange] using this
    rw [setGainsLoopAdv, if_neg (not_not_intro ⟨by omega, by omega⟩)]
    simp only [pyListSet_inRange eq band (clampGain gain) hb.1 (by omega),
      ih (eq.set band.toNat (clampGain gain)) (pkg ++ [(band, clampGain gain)])
        (by simpa using hlen) (fun x hx => hall x (by simp [hx]))]
    simp [applyGains, clampEntry]

/-- On a batch whose bands all lie in 0..14, the base set_gains loop behaves
exactly like the extended one: no range check ever matters. -/
theorem setGainsLoopBasic_all_inRange (gl : List (Int × Rat)) :
    ∀ (eq : List Rat) (pkg : List (Int × Rat)), eq.length = 15 →
      (∀ bg ∈ gl, bandInRange bg = true) →
      setGainsLoopBasic eq pkg gl
        = (applyGains eq gl, pkg ++ gl.map clampEntry, none) := by
  induction gl with
  | nil =>
    intro eq pkg _ _
    simp [setGainsLoopBasic, applyGains]
  | cons bg rest ih =>
    intro eq pkg hlen hall
    obtain ⟨band, gain⟩ := bg
    have hb : 0 ≤ band ∧ band ≤ 14 := by
      have := hall (band, gain) (by simp)
      simpa [bandInRange] using this
    rw [setGainsLoopBasic]
    simp only [pyListSet_inRange eq band (clampGain gain) hb.1 (by omega),
      ih (eq.set band.toNat (clampGain gain)) (pkg ++ [(band, clampGain gain)])
        (by simpa using hlen) (fun x hx => hall x (by simp [hx]))]
    simp [applyGains, clampEntry]

/-- When some band of the batch lies outside 0..14, the extended loop raises
IndexError at the first such entry; the entries of the good prefix have
already been written to the equalizer array. -/
theorem setGainsLoopAdv_first_bad (gl : List (Int × Rat)) :
    ∀ (eq : List Rat) (pkg : List (Int × Rat)), eq.length = 15 →
      (∃ bg ∈ gl, bandInRange bg = false) →
      setGainsLoopAdv eq pkg gl
        = (applyGains eq (gl.takeWhile bandInRange),
           pkg ++ (gl.takeWhile bandInRange).map clampEntry,
           some .indexError) := by
  induction gl with
  | nil =>
    intro eq pkg _ hbad
    simp at hbad
  | cons bg rest ih =>
    intro eq pkg hlen hbad
    obtain ⟨band, gain⟩ := bg
    by_cases hb : bandInRange (band, gain) = true
    · have hb2 : 0 ≤ band ∧ band ≤ 14 := by simpa [bandInRange] using hb
      have hbadr : ∃ x ∈ rest, bandInRange x = false := by
        rcases hbad with ⟨x, hx, hxf⟩
        rcases List.mem_cons.mp hx with h | h
        · exact absurd hb (by rw [h] at hxf; simp [hxf])
        · exact ⟨x, h, hxf⟩
      rw [setGainsLoopAdv, if_neg (not_not_intro ⟨by omega, by omega⟩)]
      simp only [pyListSet_inRange eq band (clampGain gain) hb2.1 (by omega),
        ih (eq.set band.toNat (clampGain gain))
          (pkg ++ [(band, clampGain gain)]) (by simpa using hlen) hbadr]
      rw [List.takeWhile_cons_of_pos hb]
      simp [applyGains, clampEntry]
    · have hbf : bandInRange (band, gain) = false := by
        simpa using hb
      have hb2 : ¬(-1 < band ∧ band < 15) := by
        have := hbf
        simp [bandInRange, Bool.and_eq_false_iff,
          decide_eq_false_iff_not] at this
        omega
      rw [setGainsLoopAdv]
      rw [if_pos hb2]
      rw [List.takeWhile_cons_of_neg (by simp [hbf])]
      simp [applyGains]

/-- A gain already inside the accepted range is stored unchanged. -/
theorem clampGain_eq_self (g : Rat) (h1 : -(1/4) ≤ g) (h2 : g ≤ 1) :
    clampGain g = g := by
  rw [clampGain, min_eq_left h2, max_eq_left h1]

/-- A gain of at least 1 is clamped down to 1. -/
theorem clampGain_eq_one (g : Rat) (h : 1 ≤ g) : clampGain g = 1 := by
  rw [clampGain, min_eq_right h, max_eq_left (by norm_num)]

/-- A gain of at most -0.25 is clamped up to -0.25. -/
theorem clampGain_eq_neg_quarter (g : Rat) (h : g ≤ -(1/4)) :
    clampGain g = -(1/4) := by
  rw [clampGain, max_eq_right (le_trans (min_le_left g 1) h)]

/-- C3 counterexample: the batch (band 0, gain 2), (band 20, gain 2) on a
fresh extended player. The out-of-range band 20 makes the call fail with
IndexError and no equalizer command is sent — but the equalizer array HAS
changed: band 0, processed before the bad entry, now holds the clamped gain
1 instead of the original 0. This refutes the claim that no array entry
changes and that validation of the whole batch precedes any mutation. -/
theorem c3_batch_not_prevalidated :
    (advPlayerG.set_gains [(0, 2), (20, 2)]).2.2 = some .indexError ∧
    (advPlayerG.set_gains [(0, 2), (20, 2)]).2.1 = [] ∧
    (advPlayerG.set_gains [(0, 2), (20, 2)]).1.equalizer
      ≠ advPlayerG.equalizer ∧
    (advPlayerG.set_gains [(0, 2), (20, 2)]).1.equalizer[0]? = some 1 ∧
    advPlayerG.equalizer[0]? = some 0 := by
  have hrun : advPlayerG.set_gains [(0, 2), (20, 2)]
      = ({ advPlayerG with
             equalizer := applyGains advPlayerG.equalizer [(0, 2)] },
         [], some .indexError) := by
    rw [AdvancedPlayer.set_gains,
      setGainsLoopAdv_first_bad _ advPlayerG.equalizer [] rfl
        ⟨(20, 2), by simp, by decide⟩]
    rfl
  have heq : applyGains advPlayerG.equalizer [(0, 2)]
      = advPlayerG.equalizer.set 0 1 := by
    simp only [applyGains, List.foldl_cons, List.foldl_nil]
    rw [clampGain_eq_one 2 (by norm_num)]
    rfl
  refine ⟨by rw [hrun], by rw [hrun], ?_, ?_, by decide⟩
  · rw [hrun]
    simp only [heq]
    decide
  · rw [hrun]
    simp only [heq]
    decide

/-- C3 amended: every gain stored by set_gains is the requested gain clamped
to the range -0.25..1.0 (both variants, for batches whose bands are all in
0..14, the update package being exactly the clamped batch); in the extended
variant a batch containing any band outside 0..14 fails with IndexError and
no equalizer command is sent, but the entries BEFORE the first bad one have
already been applied to the equalizer array — validation is interleaved with
mutation, not performed up front. -/
theorem c3_clamp_and_interleaved_validation (q : AdvancedPlayer)
    (pb : BasicPlayer) (gl : List (Int × Rat))
    (hq : q.equalizer.length = 15) (hpb : pb.equalizer.length = 15) :
    ((∀ bg ∈ gl, bandInRange bg = true) →
      q.set_gains gl
        = ({ q with equalizer := applyGains q.equalizer gl },
           [.cmd (.equalizer q.guild_id (gl.map clampEntry))], none) ∧
      pb.set_gains gl
        = ({ pb with equalizer := applyGains pb.equalizer gl },
           [.cmd (.equalizer pb.guild_id (gl.map clampEntry))], none)) ∧
    ((∃ bg ∈ gl, bandInRange bg = false) →
      q.set_gains gl
        = ({ q with equalizer :=
               applyGains q.equalizer (gl.takeWhile bandInRange) },
           [], some .indexError)) := by
  constructor
  · intro hall
    constructor
    · rw [AdvancedPlayer.set_gains,
        setGainsLoopAdv_all_inRange gl q.equalizer [] hq hall]
      rfl
    · rw [BasicPlayer.set_gains,
        setGainsLoopBasic_all_inRange gl pb.equalizer [] hpb hall]
      rfl
  · intro hbad
    rw [AdvancedPlayer.set_gains,
      setGainsLoopAdv_first_bad gl q.equalizer [] hq hbad]

/-- Witness for the amended C3: a fully in-range batch stores and sends the
clamped gains; the counterexample batch fails with IndexError. -/
theorem c3_clamp_and_interleaved_validation_witness :
    (advPlayerG.set_gains [(3, 2), (5, -1)]).2.1
      = [.cmd (.equalizer "1" [(3, 1), (5, -(1/4))])] ∧
    (advPlayerG.set_gains [(0, 2), (20, 2)]).2.2 = some .indexError := by
  have h1 := c3_clamp_and_interleaved_validation advPlayerG playerG
    [(3, 2), (5, -1)] (by decide) (by decide)
  have h2 := c3_clamp_and_interleaved_validation advPlayerG playerG
    [(0, 2), (20, 2)] (by decide) (by decide)
  constructor
  · rw [(h1.1 (by decide)).1]
    simp only [List.map_cons, List.map_nil, clampEntry]
    rw [clampGain_eq_one 2 (by norm_num),
      clampGain_eq_neg_quarter (-1) (by norm_num)]
    rfl
  · rw [h2.2 ⟨(20, 2), by simp, by decide⟩]

/-- The computed position does not depend on the node field, so reassigning
the channel before reading it changes nothing. -/
theorem position_ignores_node (p : BasicPlayer) (n : Nat) (now : Int) :
    ({ p with node := n } : BasicPlayer).position now = p.position now := rfl

/-- The last element of any list extended by a singleton. -/
theorem getLast?_append_singleton {α : Type} (l : List α) (x : α) :
    (l ++ [x]).getLast? = some x := by
  induction l with
  | nil => rfl
  | cons a t ih =>
    rw [List.cons_append]
    cases ht : t ++ [x] with
    | nil => exact absurd ht (by simp)
    | cons b u => rw [List.getLast?_cons_cons, ← ht, ih]

/-- Membership in a conditionally produced action list. -/
theorem mem_ite_list {α : Type} {c : Prop} [Decidable c] (a : α)
    (l : List α) : a ∈ (if c then l else []) ↔ c ∧ a ∈ l := by
  split <;> simp_all

/-- Membership in the voice-update replay: only a voiceUpdate command, and
only when the voice state is complete. -/
theorem mem_dispatch_voice_update (g : String) (v : VoiceState) (a : Action) :
    a ∈ dispatch_voice_update g v ↔
      ∃ sid, v.sessionId = some sid ∧ v.eventPresent = true ∧
        a = .cmd (.voiceUpdate g sid) := by
  rcases v with ⟨sid, evp⟩
  cases sid <;> cases evp <;> simp [dispatch_voice_update]

set_option maxHeartbeats 1000000 in
/-- C7: the resend policy of change_node. The action list always ends with
the node-changed event; when a current track exists the play command is
resent carrying startTime = computed position and the update anchor becomes
now (and the pause command is resent exactly when paused); with no current
track neither play nor pause goes out and the anchor is untouched; the
volume command is resent exactly when volume differs from the default 100;
an equalizer command is resent exactly when some band differs from 0, in
which case it carries the full 15-band state. -/
theorem c7_change_node_resend_policy (p : BasicPlayer) (newNode : Nat)
    (now : Int) (avail : Bool) :
    ((p.change_node newNode now avail).2.getLast?
       = some (.ev (.nodeChanged p.node newNode))) ∧
    (∀ t, p.current = some t →
       Action.cmd (.play p.guild_id t.track (some (p.position now)) none none)
         ∈ (p.change_node newNode now avail).2 ∧
       (p.change_node newNode now avail).1.last_update = now) ∧
    (p.current = none →
       (p.change_node newNode now avail).1.last_update = p.last_update ∧
       (∀ g tr st et nr, Action.cmd (.play g tr st et nr)
          ∉ (p.change_node newNode now avail).2)) ∧
    ((∃ b, Action.cmd (.pause p.guild_id b)
        ∈ (p.change_node newNode now avail).2)
       ↔ (p.current.isSome = true ∧ p.paused = true)) ∧
    ((∃ v, Action.cmd (.volume p.guild_id v)
        ∈ (p.change_node newNode now avail).2)
       ↔ p.volume ≠ 100) ∧
    ((∃ bands, Action.cmd (.equalizer p.guild_id bands)
        ∈ (p.change_node newNode now avail).2)
       ↔ (∃ g ∈ p.equalizer, g ≠ 0)) ∧
    (p.equalizer.any (fun g => g ≠ 0) = true →
       Action.cmd (.equalizer p.guild_id
           ((List.enum p.equalizer).map fun bg => ((bg.1 : Int), bg.2)))
         ∈ (p.change_node newNode now avail).2) := by
  refine ⟨?_, ?_⟩
  · simp only [BasicPlayer.change_node]
    try simp only [← List.append_assoc]
    exact getLast?_append_singleton _ _
  · simp only [BasicPlayer.change_node, position_ignores_node]
    cases hc : p.current <;>
      cases hp : p.paused <;>
      by_cases hv : p.volume = 100 <;>
      by_cases he : p.equalizer.any (fun g => g ≠ 0) = true <;>
      simp_all [mem_ite_list, mem_dispatch_voice_update, List.any_eq_true]

/-- Witness for C7: a player with a current track, paused, volume 42 and a
non-default equalizer band migrates to node 7 at time 5000. -/
theorem c7_change_node_resend_policy_witness :
    Action.cmd (.play "1" "b64A" (some (min 123 200000)) none none)
      ∈ (playerC7.change_node 7 5000 true).2 ∧
    (∃ b, Action.cmd (.pause "1" b) ∈ (playerC7.change_node 7 5000 true).2) ∧
    (∃ v, Action.cmd (.volume "1" v) ∈ (playerC7.change_node 7 5000 true).2) ∧
    (playerC7.change_node 7 5000 true).2.getLast?
      = some (.ev (.nodeChanged 0 7)) := by
  have h := c7_change_node_resend_policy playerC7 7 5000 true
  obtain ⟨hlast, hplay, -, hpause, hvol, -, -⟩ := h
  obtain ⟨hmem, -⟩ := hplay trackA rfl
  refine ⟨?_, ?_, ?_, hlast⟩
  · have : playerC7.position 5000 = min 123 200000 := rfl
    rw [← this]
    exact hmem
  · exact hpause.mpr ⟨rfl, rfl⟩
  · exact hvol.mpr (by decide)

end Claims

end Lavalink
